import Mathlib

/-!
# Screenlux pricing & variant engine — shallow embedding

A Lean embedding of the Screenlux configurator's pricing engine
(`assets/screenlux-engine.js` and its final revision), covering:
dimension validation, the two cost formulas, the two variant-resolution
strategies (stepped snap-and-match on `price`, and nearest-SKU match),
and cart payload assembly.

Modelling conventions:
* JS numbers are modelled exactly: millimetre dimensions as `Nat`,
  money in integer cents as `Int`, intermediate real arithmetic as `ℚ`
  (every quantity this engine computes is exactly representable).
* `Math.round` / `Math.ceil` become `jsRound` / `Int.ceil` on `ℚ`
  (all rounded quantities in this code are nonnegative, where
  `Math.round x = ⌊x + 1/2⌋`).
* Absent / `null` JS fields become `Option` values; JS truthiness of a
  string is "present and nonempty", of a number "present and nonzero".
* `parseFloat` is modelled on its finite decimal fragment (optional
  leading whitespace, optional sign, digits with an optional fractional
  part, optional exponent, longest valid prefix); inputs on which JS
  `parseFloat` yields `NaN` — and the unrepresentable `Infinity` — are
  modelled as `none`.
-/

namespace Screenlux

/-- JS `Math.round` on the nonnegative rationals this engine rounds:
`Math.round x = ⌊x + 1/2⌋` (halves round up). -/
def jsRound (q : ℚ) : ℤ := ⌊q + 1/2⌋

/-- Result record of `validateDimensions`: `{ valid, error }`. -/
structure ValidationResult where
  valid : Bool
  error : Option String
deriving DecidableEq, Repr

/-- The engine's `constraints` table:
`minWidth = 600, maxWidth = 6000, minHeight = 600, maxHeight = 5000`. -/
structure Constraints where
  minWidth : Nat
  maxWidth : Nat
  minHeight : Nat
  maxHeight : Nat
deriving DecidableEq, Repr

def constraints : Constraints := ⟨600, 6000, 600, 5000⟩

/-- `validateDimensions(width, height)`: presence check first (`!width ||
!height`, i.e. zero/missing), then width-min, width-max, height-min,
height-max against the `constraints` table (values inlined), returning
the first failing check's interpolated message. -/
def validateDimensions (width height : Nat) : ValidationResult :=
  if width = 0 ∨ height = 0 then ⟨false, some "Dimensions required"⟩
  else if width < 600 then ⟨false, some "Min width is 600mm"⟩
  else if width > 6000 then ⟨false, some "Max width is 6000mm"⟩
  else if height < 600 then ⟨false, some "Min height is 600mm"⟩
  else if height > 5000 then ⟨false, some "Max height is 5000mm"⟩
  else ⟨true, none⟩

/-- A screen configuration.  `width`/`height` in mm; the option fields are
identifier strings or `none` when unset.  `solar` is the legacy boolean
drive flag read by `generateCartPayload` in `screenlux-engine.js`
(`s.solar`), while the final engine reads `motor === 'solar'`. -/
structure Screen where
  width : Nat
  height : Nat
  frameColor : Option String
  fabricColor : Option String
  fabricType : Option String
  cassetteSize : Option String
  motor : Option String
  solar : Bool
deriving DecidableEq, Repr

/-- Fabric rate of the final `calculateScreenPrice`:
`config.fabricType === 'blackout' ? 1500 : 1150` (cents per m²). -/
def fabricRate (s : Screen) : ℚ :=
  if s.fabricType = some "blackout" then 1500 else 1150

/-- Cassette width rate: `1600`, or `2500` when `cassetteSize === 'large'`. -/
def cassetteWidthRate (s : Screen) : ℚ :=
  if s.cassetteSize = some "large" then 2500 else 1600

/-- Cassette height rate: `700`, or `900` when `cassetteSize === 'large'`. -/
def cassetteHeightRate (s : Screen) : ℚ :=
  if s.cassetteSize = some "large" then 900 else 700

/-- The final revision of `calculateScreenPrice`: `0` when the dimensions
fail validation; otherwise base `9500`, plus the fabric term
`Math.round(sqm * fabricPricePerSqm)`, plus the cassette term
`Math.round(widthM * cassetteWidthPrice + heightM * cassetteHeightPrice)`,
plus `3500` when `motor === 'solar'`.  (The source takes a `rules`
argument it never reads; it is omitted here.) -/
def calculateScreenPrice (s : Screen) : ℤ :=
  if (validateDimensions s.width s.height).valid then
    9500
      + jsRound ((s.width : ℚ) / 1000 * ((s.height : ℚ) / 1000) * fabricRate s)
      + jsRound ((s.width : ℚ) / 1000 * cassetteWidthRate s
          + (s.height : ℚ) / 1000 * cassetteHeightRate s)
      + (if s.motor = some "solar" then 3500 else 0)
  else 0

/-- C1 concrete scenario screen: 1500×1000, blackout, large cassette,
solar motor. -/
def c1Screen : Screen :=
  ⟨1500, 1000, none, none, some "blackout", some "large", some "solar", false⟩

/-- **C1.** On width=1500, height=1000, fabricType="blackout",
cassetteSize="large", motor="solar", `calculateScreenPrice` returns
exactly 19900 cents, composed additively as base 9500 + material term
`round(1.5*1500) = 2250` + cassette term `round(1.5*2500 + 1.0*900) = 4650`
+ motor surcharge 3500. -/
theorem C1_concrete_price :
    calculateScreenPrice c1Screen = 19900
    ∧ jsRound ((3 : ℚ) / 2 * 1500) = 2250
    ∧ jsRound ((3 : ℚ) / 2 * 2500 + 1 * 900) = 4650
    ∧ calculateScreenPrice c1Screen
        = 9500 + jsRound ((3 : ℚ) / 2 * 1500)
          + jsRound ((3 : ℚ) / 2 * 2500 + 1 * 900) + 3500 := by
  have h : calculateScreenPrice c1Screen = 19900 := by
    simp only [calculateScreenPrice, c1Screen, fabricRate, cassetteWidthRate,
      cassetteHeightRate, validateDimensions]
    norm_num [jsRound]
  refine ⟨h, by norm_num [jsRound], by norm_num [jsRound], ?_⟩
  rw [h]
  norm_num [jsRound]

/-- **C2.** `validateDimensions` returns `valid = true` iff both
dimensions are nonzero and within their inclusive `[min, max]` ranges;
when invalid, the error is the message of the first failing check in
the order presence, width-min, width-max, height-min, height-max. -/
theorem C2_validate_bounds_and_first_error (w h : Nat) :
    ((validateDimensions w h).valid = true
      ↔ (w ≠ 0 ∧ h ≠ 0 ∧ 600 ≤ w ∧ w ≤ 6000 ∧ 600 ≤ h ∧ h ≤ 5000))
    ∧ ((validateDimensions w h).valid = false →
        (validateDimensions w h).error
          = some (if w = 0 ∨ h = 0 then "Dimensions required"
              else if w < 600 then "Min width is 600mm"
              else if w > 6000 then "Max width is 6000mm"
              else if h < 600 then "Min height is 600mm"
              else "Max height is 5000mm")) := by
  refine ⟨?_, ?_⟩
  · simp only [validateDimensions]
    split_ifs <;> (simp_all; try omega)
  · intro hinvalid
    simp only [validateDimensions] at hinvalid ⊢
    split_ifs at hinvalid ⊢ <;> simp_all

/-- Witness for C2 at `w = 500`, `h = 700`: invalid, with the
width-min message. -/
theorem C2_witness :
    (validateDimensions 500 700).valid = false
    ∧ (validateDimensions 500 700).error = some "Min width is 600mm" := by
  refine ⟨by decide, ?_⟩
  have h := (C2_validate_bounds_and_first_error 500 700).2 (by decide)
  simpa using h

/-- A sellable catalog variant: `id`, `price` (integer cents), and an
optional `sku` string that may itself encode a decimal price
(e.g. `"950,00"`).  Strategy A reads only `price`; Strategy B reads
`sku`. -/
structure Variant where
  id : Int
  price : Int
  sku : Option String
deriving DecidableEq, Repr

/-- Strategy A `matchVariant(rawPrice, variants)` from
`screenlux-engine.js`: round the raw price up to the nearest
`STEP = 5000` cents, clamp sequentially to `MIN_PRICE = 50000` /
`MAX_PRICE = 300000`, then `variants.find(v => v.price === target)`,
with `null` when nothing matches. -/
def matchVariantStepped (rawPrice : Int) (variants : List Variant) :
    Option Variant :=
  let target0 : Int := ⌈(rawPrice : ℚ) / 5000⌉ * 5000
  let target1 : Int := if target0 < 50000 then 50000 else target0
  let target : Int := if target1 > 300000 then 300000 else target1
  variants.find? (fun v => v.price == target)

/-- The spec-side Strategy A target: raw price rounded up to the nearest
5000-cent step, then clamped into `[50000, 300000]` inclusive. -/
def steppedClampedTarget (rawPrice : Int) : Int :=
  min 300000 (max 50000 (⌈(rawPrice : ℚ) / 5000⌉ * 5000))

lemma matchVariantStepped_eq_find (rawPrice : Int) (variants : List Variant) :
    matchVariantStepped rawPrice variants
      = variants.find? (fun v => v.price == steppedClampedTarget rawPrice) := by
  simp only [matchVariantStepped, steppedClampedTarget]
  congr 1
  funext v
  congr 1
  split_ifs <;> omega

/-- **C6.** Strategy A resolution rounds the raw price up to the nearest
5000-cent step, clamps into `[50000, 300000]` inclusive, and returns a
variant whose `price` exactly equals the clamped stepped target (`none`
when no variant carries that price); every raw price below 50000 targets
50000 and every raw price above 300000 targets 300000. -/
theorem C6_stepped_clamp_exact_match (rawPrice : Int) (variants : List Variant) :
    (matchVariantStepped rawPrice variants
      = variants.find? (fun v => v.price == steppedClampedTarget rawPrice))
    ∧ ((∀ v ∈ variants, v.price ≠ steppedClampedTarget rawPrice) →
        matchVariantStepped rawPrice variants = none)
    ∧ (∀ v, matchVariantStepped rawPrice variants = some v →
        v ∈ variants ∧ v.price = steppedClampedTarget rawPrice)
    ∧ (rawPrice < 50000 → steppedClampedTarget rawPrice = 50000)
    ∧ (rawPrice > 300000 → steppedClampedTarget rawPrice = 300000) := by
  refine ⟨matchVariantStepped_eq_find rawPrice variants, ?_, ?_, ?_, ?_⟩
  · intro hnone
    rw [matchVariantStepped_eq_find]
    rw [List.find?_eq_none]
    intro v hv
    simpa using hnone v hv
  · intro v hv
    rw [matchVariantStepped_eq_find] at hv
    refine ⟨List.mem_of_find?_eq_some hv, ?_⟩
    have := List.find?_some hv
    simpa using this
  · intro hlt
    have hle : (rawPrice : ℚ) ≤ 50000 := by
      exact_mod_cast (by omega : rawPrice ≤ (50000 : Int))
    have hceil : ⌈(rawPrice : ℚ) / 5000⌉ ≤ 10 := by
      rw [Int.ceil_le, div_le_iff₀ (by norm_num)]
      push_cast
      linarith
    simp only [steppedClampedTarget]
    omega
  · intro hgt
    have hlt' : (300000 : ℚ) < (rawPrice : ℚ) := by
      exact_mod_cast (by omega : (300000 : Int) < rawPrice)
    have hceil : (60 : Int) < ⌈(rawPrice : ℚ) / 5000⌉ := by
      rw [Int.lt_ceil, lt_div_iff₀ (by norm_num)]
      push_cast
      linarith
    simp only [steppedClampedTarget]
    omega

/-- Witness for C6: raw price `97` targets `50000` (clamped up from step
`5000`), resolving to the `50000`-priced variant; with the same catalog,
a raw price of `301000` targets `300000`, which no variant carries. -/
theorem C6_witness :
    ((97 : Int) < 50000 ∧ steppedClampedTarget 97 = 50000)
    ∧ ((301000 : Int) > 300000 ∧ steppedClampedTarget 301000 = 300000)
    ∧ matchVariantStepped 97 [⟨7, 50000, none⟩] = some ⟨7, 50000, none⟩
    ∧ matchVariantStepped 301000 [⟨7, 50000, none⟩] = none := by
  have h97 := C6_stepped_clamp_exact_match 97 [⟨7, 50000, none⟩]
  have h301 := C6_stepped_clamp_exact_match 301000 [⟨7, 50000, none⟩]
  have t97 : steppedClampedTarget 97 = 50000 := h97.2.2.2.1 (by norm_num)
  have t301 : steppedClampedTarget 301000 = 300000 := h301.2.2.2.2 (by norm_num)
  refine ⟨⟨by norm_num, t97⟩, ⟨by norm_num, t301⟩, ?_, ?_⟩
  · rw [h97.1, t97]
    rfl
  · exact h301.2.1 (by simp [t301])

/-- Value of a decimal digit character (`'0'` has code 48). -/
def digitVal (c : Char) : Nat := c.toNat - 48

/-- Natural number denoted by a digit list, most significant first. -/
def digitsToNat (ds : List Char) : Nat :=
  ds.foldl (fun n c => 10 * n + digitVal c) 0

/-- ASCII whitespace skipped by `parseFloat` before the number. -/
def jsWhitespace (c : Char) : Bool :=
  c == ' ' || c == '\t' || c == '\n' || c == '\r'

/-- Syntactic result of scanning a decimal literal: sign, integer-part
value, fraction value and digit count, exponent sign and value. -/
structure DecimalScan where
  neg : Bool
  intVal : Nat
  fracVal : Nat
  fracLen : Nat
  expNeg : Bool
  expVal : Nat
deriving DecidableEq, Repr

/-- The rational a scanned decimal denotes:
`±(int + frac/10^fracLen) · 10^(±exp)`. -/
def DecimalScan.value (d : DecimalScan) : ℚ :=
  (if d.neg then -1 else 1)
    * ((d.intVal : ℚ) + (d.fracVal : ℚ) / 10 ^ d.fracLen)
    * (if d.expNeg then 1 / 10 ^ d.expVal else 10 ^ d.expVal)

/-- Scan an exponent's optionally signed digit part; no digits means no
exponent (JS `parseFloat("1e")` is `1`, matching exponent value 0). -/
def scanSignedExp (cs : List Char) : Bool × Nat :=
  match cs with
  | '+' :: cs2 => (false, digitsToNat (cs2.takeWhile Char.isDigit))
  | '-' :: cs2 => (true, digitsToNat (cs2.takeWhile Char.isDigit))
  | _ => (false, digitsToNat (cs.takeWhile Char.isDigit))

/-- Scan a trailing `e`/`E` exponent marker if present. -/
def scanExp (cs : List Char) : Bool × Nat :=
  match cs with
  | 'e' :: cs2 => scanSignedExp cs2
  | 'E' :: cs2 => scanSignedExp cs2
  | _ => (false, 0)

/-- Scan the longest unsigned decimal prefix
`digits [ '.' digits ] [exponent]`; `none` when no digit is consumed
(JS `NaN`). -/
def scanUnsigned (neg : Bool) (cs : List Char) : Option DecimalScan :=
  let intPart := cs.takeWhile Char.isDigit
  let rest1 := cs.dropWhile Char.isDigit
  match rest1 with
  | '.' :: cs2 =>
    let fracPart := cs2.takeWhile Char.isDigit
    if intPart = [] ∧ fracPart = [] then none
    else
      let e := scanExp (cs2.dropWhile Char.isDigit)
      some ⟨neg, digitsToNat intPart, digitsToNat fracPart, fracPart.length,
        e.1, e.2⟩
  | _ =>
    if intPart = [] then none
    else
      let e := scanExp rest1
      some ⟨neg, digitsToNat intPart, 0, 0, e.1, e.2⟩

/-- Scan a decimal literal the way JS `parseFloat` reads its input: skip
leading whitespace, read an optional sign, then the longest valid decimal
prefix. -/
def scanDecimal (cs : List Char) : Option DecimalScan :=
  match cs.dropWhile jsWhitespace with
  | '-' :: cs2 => scanUnsigned true cs2
  | '+' :: cs2 => scanUnsigned false cs2
  | cs1 => scanUnsigned false cs1

/-- Model of JS `parseFloat` on its finite decimal fragment: the value of
the scanned prefix.  `none` stands for `NaN` (and for the unrepresentable
`Infinity`). -/
def parseFloatQ (cs : List Char) : Option ℚ :=
  (scanDecimal cs).map DecimalScan.value

/-- `v.sku.replace(',', '.')`: JS `String.replace` with a string pattern
replaces only the first occurrence. -/
def replaceFirstComma : List Char → List Char
  | [] => []
  | c :: cs => if c = ',' then '.' :: cs else c :: replaceFirstComma cs

/-- The scanned SKU of a variant: `none` when the sku is missing or empty
(falsy in `v.sku && ...`) or does not scan as a number. -/
def skuScan (v : Variant) : Option DecimalScan :=
  match v.sku with
  | none => none
  | some s => if s = "" then none else scanDecimal (replaceFirstComma s.data)

/-- The parsed SKU value Strategy B works with:
`v.sku && parseFloat(v.sku.replace(',', '.'))`; `none` when the sku is
missing or empty (falsy) or does not parse (`NaN`). -/
def skuVal (v : Variant) : Option ℚ :=
  (skuScan v).map DecimalScan.value

/-- `Math.abs(parseFloat(v.sku.replace(',', '.')) - targetCost)`; only
ever used on variants whose SKU parses. -/
def skuDist (target : ℚ) (v : Variant) : ℚ := |(skuVal v).getD 0 - target|

/-- Strategy B `matchVariant(rawPrice, variants)` from the final engine
revision: first an exact SKU-parse match (`find`), else the nearest
parseable SKU via `reduce` (which keeps the earlier variant on ties,
replacing only on a strictly smaller distance), else
`variants[0] || null`. -/
def matchVariantSku (rawPrice : Int) (variants : List Variant) :
    Option Variant :=
  let targetCost : ℚ := (rawPrice : ℚ) / 100
  match variants.find? (fun v => decide (skuVal v = some targetCost)) with
  | some m => some m
  | none =>
    match variants.filter (fun v => (skuVal v).isSome) with
    | [] => variants.head?
    | x :: xs => some (xs.foldl (fun prev curr =>
        if skuDist targetCost curr < skuDist targetCost prev then curr
        else prev) x)

/-- A left fold with `if f c < f p then c else p` returns the first
minimizer of `f`: it is an element of the list, no element is strictly
smaller, and every element before it is strictly larger. -/
lemma foldl_min_first (f : Variant → ℚ) :
    ∀ (xs : List Variant) (x : Variant),
      ∃ l₁ l₂,
        x :: xs = l₁ ++ (xs.foldl (fun p c => if f c < f p then c else p) x) :: l₂
        ∧ (∀ w ∈ x :: xs,
            f (xs.foldl (fun p c => if f c < f p then c else p) x) ≤ f w)
        ∧ (∀ w ∈ l₁,
            f (xs.foldl (fun p c => if f c < f p then c else p) x) < f w) := by
  intro xs
  induction xs with
  | nil =>
    intro x
    exact ⟨[], [], rfl, by simp, by simp⟩
  | cons y ys ih =>
    intro x
    simp only [List.foldl_cons]
    by_cases hy : f y < f x
    · rw [if_pos hy]
      obtain ⟨l₁, l₂, hdecomp, hmin, hfirst⟩ := ih y
      refine ⟨x :: l₁, l₂, ?_, ?_, ?_⟩
      · rw [List.cons_append, ← hdecomp]
      · intro w hw
        rcases List.mem_cons.mp hw with hwx | hwm
        · subst hwx
          exact le_of_lt (lt_of_le_of_lt (hmin y (List.mem_cons_self _ _)) hy)
        · exact hmin w hwm
      · intro w hw
        rcases List.mem_cons.mp hw with hwx | hwm
        · subst hwx
          exact lt_of_le_of_lt (hmin y (List.mem_cons_self _ _)) hy
        · exact hfirst w hwm
    · rw [if_neg hy]
      obtain ⟨l₁, l₂, hdecomp, hmin, hfirst⟩ := ih x
      cases l₁ with
      | nil =>
        obtain ⟨hx, hys⟩ : x = ys.foldl (fun p c => if f c < f p then c else p) x
            ∧ ys = l₂ := by
          simpa using hdecomp
        refine ⟨[], y :: l₂, ?_, ?_, by simp⟩
        · simp only [List.nil_append, ← hys, ← hx]
        · intro w hw
          rcases List.mem_cons.mp hw with hwx | hwm
          · rw [hwx]
            exact hmin x (List.mem_cons_self _ _)
          · rcases List.mem_cons.mp hwm with hwy | hwm'
            · rw [hwy]
              exact le_trans (hmin x (List.mem_cons_self _ _)) (le_of_not_lt hy)
            · exact hmin w (List.mem_cons_of_mem _ hwm')
      | cons a l₁' =>
        obtain ⟨hxa, hys⟩ : x = a ∧ ys = l₁' ++
            (ys.foldl (fun p c => if f c < f p then c else p) x) :: l₂ := by
          simpa using hdecomp
        have hrx : f (ys.foldl (fun p c => if f c < f p then c else p) x) < f x := by
          have := hfirst a (List.mem_cons_self _ _)
          rwa [← hxa] at this
        refine ⟨x :: y :: l₁', l₂, ?_, ?_, ?_⟩
        · simp only [List.cons_append, List.cons.injEq, true_and]
          exact hys
        · intro w hw
          rcases List.mem_cons.mp hw with hwx | hwm
          · rw [hwx]; exact le_of_lt hrx
          · rcases List.mem_cons.mp hwm with hwy | hwm'
            · rw [hwy]
              exact le_of_lt (lt_of_lt_of_le hrx (le_of_not_lt hy))
            · exact hmin w (List.mem_cons_of_mem _ hwm')
        · intro w hw
          rcases List.mem_cons.mp hw with hwx | hwm
          · rw [hwx]; exact hrx
          · rcases List.mem_cons.mp hwm with hwy | hwm'
            · rw [hwy]
              exact lt_of_lt_of_le hrx (le_of_not_lt hy)
            · exact hfirst w (List.mem_cons_of_mem _ hwm')

/-- When no exact SKU match exists and the parseable sublist is
`x :: xs`, Strategy B returns the `reduce` fold over that sublist. -/
lemma matchVariantSku_fold (rawPrice : Int) (variants : List Variant)
    (x : Variant) (xs : List Variant)
    (hnone : variants.find?
        (fun v => decide (skuVal v = some ((rawPrice : ℚ) / 100))) = none)
    (hfilter : variants.filter (fun v => (skuVal v).isSome) = x :: xs) :
    matchVariantSku rawPrice variants
      = some (xs.foldl (fun prev curr =>
          if skuDist ((rawPrice : ℚ) / 100) curr
              < skuDist ((rawPrice : ℚ) / 100) prev then curr
          else prev) x) := by
  simp only [matchVariantSku]
  rw [hnone, hfilter]

/-- **C4.** Strategy B resolution: if some variant's SKU parses (comma
accepted as decimal separator) exactly to `rawPrice/100`, the first such
variant is returned; otherwise, writing the parseable-SKU variants in
supplied order as `x :: xs`, the returned variant is one of them, no
parseable variant is strictly closer to the target, and every parseable
variant listed before it is strictly farther (so ties keep the earlier
variant). -/
theorem C4_exact_before_nearest (rawPrice : Int) (variants : List Variant) :
    (∀ m, variants.find?
        (fun v => decide (skuVal v = some ((rawPrice : ℚ) / 100))) = some m →
      matchVariantSku rawPrice variants = some m)
    ∧ (variants.find?
        (fun v => decide (skuVal v = some ((rawPrice : ℚ) / 100))) = none →
      ∀ x xs, variants.filter (fun v => (skuVal v).isSome) = x :: xs →
      ∃ r l₁ l₂,
        matchVariantSku rawPrice variants = some r
        ∧ r ∈ variants ∧ (skuVal r).isSome
        ∧ x :: xs = l₁ ++ r :: l₂
        ∧ (∀ w ∈ x :: xs, skuDist ((rawPrice : ℚ) / 100) r
            ≤ skuDist ((rawPrice : ℚ) / 100) w)
        ∧ (∀ w ∈ l₁, skuDist ((rawPrice : ℚ) / 100) r
            < skuDist ((rawPrice : ℚ) / 100) w)) := by
  constructor
  · intro m hm
    simp only [matchVariantSku]
    rw [hm]
  · intro hnone x xs hfilter
    obtain ⟨l₁, l₂, hd, hmin, hfirst⟩ :=
      foldl_min_first (skuDist ((rawPrice : ℚ) / 100)) xs x
    have hrmem : xs.foldl (fun p c =>
        if skuDist ((rawPrice : ℚ) / 100) c
            < skuDist ((rawPrice : ℚ) / 100) p then c else p) x ∈ x :: xs := by
      rw [hd]
      exact List.mem_append_right _ (List.mem_cons_self _ _)
    have hrfilter := List.mem_filter.mp (hfilter ▸ hrmem)
    exact ⟨_, l₁, l₂, matchVariantSku_fold rawPrice variants x xs hnone hfilter,
      hrfilter.1, hrfilter.2, hd, hmin, hfirst⟩

/-- **C5 (counterexample).** The empty variant list vacuously has no
variant with a parseable SKU, yet Strategy B returns `null` on it rather
than a first element — so "never returns null in this strategy" fails. -/
theorem C5_counterexample : matchVariantSku 0 [] = none := rfl

/-- **C5 (amended).** For every *nonempty* variant list in which no
variant has a parseable SKU, Strategy B returns the first element of the
supplied list, for every raw price value, and in particular returns a
variant (not `null`); on the empty list it returns `null`. -/
theorem C5_fallback_first (rawPrice : Int) (variants : List Variant)
    (hnoparse : ∀ v ∈ variants, skuVal v = none) (hne : variants ≠ []) :
    matchVariantSku rawPrice variants = variants.head?
    ∧ (matchVariantSku rawPrice variants).isSome := by
  have hfind : variants.find?
      (fun v => decide (skuVal v = some ((rawPrice : ℚ) / 100))) = none := by
    rw [List.find?_eq_none]
    intro v hv
    simp [hnoparse v hv]
  have hfilter : variants.filter (fun v => (skuVal v).isSome) = [] := by
    rw [List.filter_eq_nil_iff]
    intro v hv
    simp [hnoparse v hv]
  have hmain : matchVariantSku rawPrice variants = variants.head? := by
    simp only [matchVariantSku]
    rw [hfind, hfilter]
  refine ⟨hmain, ?_⟩
  rw [hmain]
  cases variants with
  | nil => exact absurd rfl hne
  | cons a l => simp

/-- Witness for C5: a nonempty list with an absent SKU and an unparseable
SKU resolves to its first element for an arbitrary raw price. -/
theorem C5_witness :
    (∀ v ∈ [(⟨1, 500, none⟩ : Variant), ⟨2, 600, some "abc"⟩], skuVal v = none)
    ∧ matchVariantSku 123 [⟨1, 500, none⟩, ⟨2, 600, some "abc"⟩]
        = some ⟨1, 500, none⟩ := by
  have h1 : ∀ v ∈ [(⟨1, 500, none⟩ : Variant), ⟨2, 600, some "abc"⟩],
      skuVal v = none := by decide
  refine ⟨h1, ?_⟩
  rw [(C5_fallback_first 123 _ h1 (by decide)).1]
  rfl

/-- Witness for C4: with SKUs `"9,50"` and `"950"`, raw price 950 cents
(target 9.5) resolves exactly to the `"9,50"` variant; with SKUs `"2,00"`
and `"1,50"` and raw price 100 cents (target 1, no exact match), the
nearest-parseable-SKU pass returns some listed parseable variant. -/
theorem C4_witness :
    matchVariantSku 950 [⟨1, 0, some "9,50"⟩, ⟨2, 0, some "950"⟩]
      = some ⟨1, 0, some "9,50"⟩
    ∧ ∃ r, matchVariantSku 100 [⟨1, 100, some "2,00"⟩, ⟨2, 200, some "1,50"⟩]
        = some r
      ∧ r ∈ [(⟨1, 100, some "2,00"⟩ : Variant), ⟨2, 200, some "1,50"⟩]
      ∧ (skuVal r).isSome := by
  have e1 : skuVal ⟨1, 0, some "9,50"⟩ = some ((19 : ℚ) / 2) := by
    have s1 : skuScan ⟨1, 0, some "9,50"⟩ = some ⟨false, 9, 50, 2, false, 0⟩ := by
      decide
    simp only [skuVal, s1, Option.map_some']
    norm_num [DecimalScan.value]
  have eA : skuVal ⟨1, 100, some "2,00"⟩ = some (2 : ℚ) := by
    have sA : skuScan ⟨1, 100, some "2,00"⟩ = some ⟨false, 2, 0, 2, false, 0⟩ := by
      decide
    simp only [skuVal, sA, Option.map_some']
    norm_num [DecimalScan.value]
  have eB : skuVal ⟨2, 200, some "1,50"⟩ = some ((3 : ℚ) / 2) := by
    have sB : skuScan ⟨2, 200, some "1,50"⟩ = some ⟨false, 1, 50, 2, false, 0⟩ := by
      decide
    simp only [skuVal, sB, Option.map_some']
    norm_num [DecimalScan.value]
  constructor
  · refine (C4_exact_before_nearest 950 _).1 _ ?_
    have p1 : (fun v => decide (skuVal v = some (((950 : Int) : ℚ) / 100)))
        (⟨1, 0, some "9,50"⟩ : Variant) = true := by
      simp only [decide_eq_true_eq, e1]
      norm_num
    exact List.find?_cons_of_pos _ p1
  · have hfind : List.find?
        (fun v => decide (skuVal v = some (((100 : Int) : ℚ) / 100)))
        [⟨1, 100, some "2,00"⟩, ⟨2, 200, some "1,50"⟩] = none := by
      rw [List.find?_eq_none]
      intro v hv
      rcases List.mem_cons.mp hv with hA | hv'
      · rw [hA]
        simp only [decide_eq_true_eq, eA]
        norm_num
      · rcases List.mem_cons.mp hv' with hB | hv''
        · rw [hB]
          simp only [decide_eq_true_eq, eB]
          norm_num
        · simp at hv''
    have hfilter : List.filter (fun v => (skuVal v).isSome)
        [⟨1, 100, some "2,00"⟩, ⟨2, 200, some "1,50"⟩]
        = [⟨1, 100, some "2,00"⟩, ⟨2, 200, some "1,50"⟩] := by
      rw [List.filter_cons_of_pos, List.filter_cons_of_pos, List.filter_nil]
      · rw [eB]; rfl
      · rw [eA]; rfl
    obtain ⟨r, l₁, l₂, hres, hmem, hsome, -, -, -⟩ :=
      (C4_exact_before_nearest 100 _).2 hfind _ _ hfilter
    exact ⟨r, hres, hmem, hsome⟩

/-- The pricing rules/constants object consumed by the `screenlux-engine.js`
revision of `calculateScreenPrice` (populated by settings; any field may
be absent).  Areas and rates are rationals; flat cent amounts are
integers. -/
structure PricingRules where
  price_per_sqm : Option ℚ
  min_billable_sqm : Option ℚ
  base_includes_sqm : Option ℚ
  base_price : Option Int
  surcharge_cassette : Option Int
  surcharge_solar : Option Int
deriving DecidableEq, Repr

/-- JS `a || d` on an optional number: the default replaces both an
absent field and a (falsy) zero. -/
def jsOrQ (v : Option ℚ) (d : ℚ) : ℚ :=
  match v with
  | none => d
  | some x => if x = 0 then d else x

/-- JS `a || d` on an optional integer amount. -/
def jsOrInt (v : Option Int) (d : Int) : Int :=
  match v with
  | none => d
  | some x => if x = 0 then d else x

/-- The `screenlux-engine.js` revision of `calculateScreenPrice`: `0` on
invalid dimensions, else `BASE_PRICE` plus
`Math.round(max(0, max(sqm, MIN_BILLABLE) - BASE_INCLUDES) * PRICE_PER_SQM)`
plus flat cassette and solar surcharges from the rules (with JS `||`
defaults 5000 and 10000; `PRICE_PER_SQM` defaults to 5000 only when the
field is absent — `!== undefined` — and `BASE_PRICE` to 50000 via `||`). -/
def calculateScreenPriceRules (config : Screen) (rules : PricingRules) : Int :=
  if (validateDimensions config.width config.height).valid then
    let sqm : ℚ := (config.width : ℚ) / 1000 * ((config.height : ℚ) / 1000)
    let pricePerSqm : ℚ := (rules.price_per_sqm).getD 5000
    let minBillable : ℚ := jsOrQ rules.min_billable_sqm 0
    let baseIncludes : ℚ := jsOrQ rules.base_includes_sqm 0
    let basePrice : Int := jsOrInt rules.base_price 50000
    let billableSqm : ℚ := max sqm minBillable
    let chargeableSqm : ℚ := max 0 (billableSqm - baseIncludes)
    let areaCost : Int := jsRound (chargeableSqm * pricePerSqm)
    basePrice + areaCost
      + (if config.cassetteSize = some "large" then
          jsOrInt rules.surcharge_cassette 5000 else 0)
      + (if config.motor = some "solar" then
          jsOrInt rules.surcharge_solar 10000 else 0)
  else 0

/-- **C3.** Every configuration whose width/height fail
`validateDimensions` prices to exactly `0` (the "not priceable"
sentinel), in the final revision and, for every rules object, in the
`screenlux-engine.js` revision; no partial or negative amount. -/
theorem C3_invalid_price_is_zero (s : Screen)
    (h : (validateDimensions s.width s.height).valid = false) :
    calculateScreenPrice s = 0
    ∧ ∀ rules : PricingRules, calculateScreenPriceRules s rules = 0 := by
  constructor
  · simp [calculateScreenPrice, h]
  · intro rules
    simp [calculateScreenPriceRules, h]

/-- Witness for C3 at width 0 (missing dimension) and an empty rules
object. -/
theorem C3_witness :
    (validateDimensions 0 1000).valid = false
    ∧ calculateScreenPrice ⟨0, 1000, none, none, none, none, none, false⟩ = 0
    ∧ calculateScreenPriceRules ⟨0, 1000, none, none, none, none, none, false⟩
        ⟨none, none, none, none, none, none⟩ = 0 := by
  have h : (validateDimensions 0 1000).valid = false := by decide
  have hc := C3_invalid_price_is_zero ⟨0, 1000, none, none, none, none, none, false⟩ h
  exact ⟨h, hc.1, hc.2 _⟩

/-- **C9 (counterexample).** At 625×625 (valid dimensions, non-blackout
fabric, no motor), switching the cassette from default to large raises
the price by 687 cents, while
`round(widthM·(2500−1600) + heightM·(900−700)) = round(687.5) = 688`:
the per-term rounding of the two cassette terms breaks the claimed
round-of-the-delta formula by one cent. -/
theorem C9_counterexample :
    (validateDimensions 625 625).valid = true
    ∧ calculateScreenPrice ⟨625, 625, none, none, none, some "large", none, false⟩
        - calculateScreenPrice ⟨625, 625, none, none, none, none, none, false⟩
        = 687
    ∧ jsRound ((625 : ℚ) / 1000 * (2500 - 1600)
        + (625 : ℚ) / 1000 * (900 - 700)) = 688 := by
  have h1 : calculateScreenPrice
      ⟨625, 625, none, none, none, some "large", none, false⟩ = 12074 := by
    simp [calculateScreenPrice, fabricRate, cassetteWidthRate,
      cassetteHeightRate, validateDimensions]
    norm_num [jsRound]
  have h2 : calculateScreenPrice
      ⟨625, 625, none, none, none, none, none, false⟩ = 11387 := by
    simp [calculateScreenPrice, fabricRate, cassetteWidthRate,
      cassetteHeightRate, validateDimensions]
    norm_num [jsRound]
  refine ⟨by decide, ?_, by norm_num [jsRound]⟩
  rw [h1, h2]
  norm_num

/-- **C9 (amended).** For every configuration with valid dimensions:
switching the motor from non-solar to solar raises the final
`calculateScreenPrice` by exactly the flat 3500-cent solar surcharge; and
switching the cassette from default to large raises it by exactly
`round(widthM·2500 + heightM·900) − round(widthM·1600 + heightM·700)` —
the difference of the two independently rounded cassette terms, which can
differ by one cent from `round` of the rate delta. -/
theorem C9_surcharge_additivity (s : Screen)
    (hv : (validateDimensions s.width s.height).valid = true) :
    (s.motor ≠ some "solar" →
      calculateScreenPrice { s with motor := some "solar" }
        = calculateScreenPrice s + 3500)
    ∧ (s.cassetteSize ≠ some "large" →
      calculateScreenPrice { s with cassetteSize := some "large" }
        - calculateScreenPrice s
        = jsRound ((s.width : ℚ) / 1000 * 2500 + (s.height : ℚ) / 1000 * 900)
          - jsRound ((s.width : ℚ) / 1000 * 1600 + (s.height : ℚ) / 1000 * 700)) := by
  constructor
  · intro hmot
    simp only [calculateScreenPrice, fabricRate, cassetteWidthRate,
      cassetteHeightRate, hv, if_true]
    rw [if_neg hmot]
    ring
  · intro hcas
    simp only [calculateScreenPrice, fabricRate, cassetteWidthRate,
      cassetteHeightRate, hv, if_true]
    simp only [if_neg hcas]
    ring

/-- Witness for C9 at a valid 1000×1000 screen with defaults: the solar
toggle adds 3500 and the cassette toggle adds the difference of rounded
cassette terms. -/
theorem C9_witness :
    (validateDimensions 1000 1000).valid = true
    ∧ calculateScreenPrice ⟨1000, 1000, none, none, none, none, some "solar", false⟩
        = calculateScreenPrice ⟨1000, 1000, none, none, none, none, none, false⟩ + 3500
    ∧ calculateScreenPrice ⟨1000, 1000, none, none, none, some "large", none, false⟩
        - calculateScreenPrice ⟨1000, 1000, none, none, none, none, none, false⟩
        = jsRound ((1000 : ℚ) / 1000 * 2500 + (1000 : ℚ) / 1000 * 900)
          - jsRound ((1000 : ℚ) / 1000 * 1600 + (1000 : ℚ) / 1000 * 700) := by
  have hv : (validateDimensions 1000 1000).valid = true := by decide
  have h := C9_surcharge_additivity
    ⟨1000, 1000, none, none, none, none, none, false⟩ hv
  exact ⟨hv, h.1 (by simp), h.2 (by simp)⟩

/-- The raw price of an invalid configuration is the `0` sentinel
(final revision). -/
lemma calculateScreenPrice_invalid (s : Screen)
    (h : (validateDimensions s.width s.height).valid = false) :
    calculateScreenPrice s = 0 := by
  simp [calculateScreenPrice, h]

/-- The raw price of an invalid configuration is the `0` sentinel
(`screenlux-engine.js` revision), for every rules object. -/
lemma calculateScreenPriceRules_invalid (s : Screen) (rules : PricingRules)
    (h : (validateDimensions s.width s.height).valid = false) :
    calculateScreenPriceRules s rules = 0 := by
  simp [calculateScreenPriceRules, h]

/-- An option-catalog entry: stable identifier and display title. -/
structure TitledItem where
  id : String
  title : String
deriving DecidableEq, Repr

/-- An installation service product (`title` is keyword-matched). -/
structure Service where
  id : Int
  title : String
deriving DecidableEq, Repr

/-- The session state `generateCartPayload` consumes: screens in order,
installation type, the selected bracket id (DIY mode), and the accessory
id → quantity mapping in iteration order.  (JS stores addon keys as
numeric strings and converts back with `parseInt`; they are modelled as
the numbers themselves.) -/
structure SessionState where
  screens : List Screen
  installationType : Option String
  bracketId : Option Int
  addons : List (Int × Int)
deriving DecidableEq, Repr

/-- The `ScreenluxData` catalog: pricing config, screen variants, the
descriptive option catalogs, and installation services. -/
structure CatalogData where
  config : PricingRules
  screens : List Variant
  frameColors : List TitledItem
  fabricColors : List TitledItem
  fabrics : List TitledItem
  cassetteSizes : List TitledItem
  motorOptions : List TitledItem
  services : List Service
deriving DecidableEq, Repr

/-- One cart line item `{ id, quantity, properties? }`.  Property values
are display strings (numbers stringified) or `null` when an unset option
id flows through `findTitle`. -/
structure CartItem where
  id : Int
  quantity : Int
  properties : Option (List (String × Option String))
deriving DecidableEq, Repr

/-- The `{ items }` object returned by `generateCartPayload`. -/
structure CartPayload where
  items : List CartItem
deriving DecidableEq, Repr

/-- `findTitle(list, id)`: the title of the first entry whose id matches,
else the id itself (`null` stays `null`). -/
def findTitle (list : List TitledItem) (id : Option String) : Option String :=
  match list.find? (fun x => decide (some x.id = id)) with
  | some item => some item.title
  | none => id

/-- Is the first character list an initial segment of the second? -/
def charsPrefixOf : List Char → List Char → Bool
  | [], _ => true
  | _ :: _, [] => false
  | a :: as, b :: bs => a == b && charsPrefixOf as bs

/-- Does `needle` occur contiguously in the character list? -/
def charsContains (needle : List Char) : List Char → Bool
  | [] => charsPrefixOf needle []
  | c :: cs => charsPrefixOf needle (c :: cs) || charsContains needle cs

/-- JS `String.includes`: substring containment. -/
def jsIncludes (s needle : String) : Bool :=
  charsContains needle.data s.data

/-- `` `€${(cents / 100).toFixed(2)}` ``: the cent amount rendered as a
two-decimal Euro string. -/
def euroFormat (cents : Int) : String :=
  (if cents < 0 then "€-" else "€")
    ++ toString (cents.natAbs / 100) ++ "."
    ++ (if cents.natAbs % 100 < 10 then "0" else "")
    ++ toString (cents.natAbs % 100)

/-- The descriptive properties of a screen line item (identical in
`screenlux-engine.js` and the final revision). -/
def screenProps (data : CatalogData) (index : Nat) (screen : Screen)
    (rawPrice : Int) : List (String × Option String) :=
  [("_Screen ID", some (toString (index + 1))),
   ("Reference", some ("Screen " ++ toString (index + 1))),
   ("Dimensions", some (toString screen.width ++ "mm x "
      ++ toString screen.height ++ "mm")),
   ("Frame Color", findTitle data.frameColors screen.frameColor),
   ("Fabric Color", findTitle data.fabricColors screen.fabricColor),
   ("Fabric Transparency", findTitle data.fabrics screen.fabricType),
   ("Cassette Size", findTitle data.cassetteSizes screen.cassetteSize),
   ("Motor", findTitle data.motorOptions screen.motor),
   ("Calculated Price", some (euroFormat rawPrice))]

/-- The final-revision screen line for `(index, screen)`: final-formula
price, Strategy B resolution; `none` when resolution fails (the JS
`forEach` body logs an error and returns, skipping the item). -/
def screenLineSku (data : CatalogData) (p : Nat × Screen) : Option CartItem :=
  let rawPrice := calculateScreenPrice p.2
  match matchVariantSku rawPrice data.screens with
  | none => none
  | some variant =>
    some ⟨variant.id, 1, some (screenProps data p.1 p.2 rawPrice)⟩

/-- The `screenlux-engine.js` screen line for `(index, screen)`:
rules-based price, Strategy A resolution; `none` when resolution fails. -/
def screenLineStepped (data : CatalogData) (p : Nat × Screen) :
    Option CartItem :=
  let rawPrice := calculateScreenPriceRules p.2 data.config
  match matchVariantStepped rawPrice data.screens with
  | none => none
  | some variant =>
    some ⟨variant.id, 1, some (screenProps data p.1 p.2 rawPrice)⟩

/-- `generateCartPayload` of the final revision: screens (skipping failed
resolutions), then the professional-installation service (title keyword
`"Wired"` when some screen has `motor !== 'solar'`, else `"Solar"`), then
the DIY bracket (quantity = number of screens), then positive-quantity
addons — each pushed onto the `items` array in that order. -/
def generateCartPayloadSku (state : SessionState) (data : CatalogData) :
    CartPayload :=
  let items1 : List CartItem := (state.screens.enum).foldl (fun items p =>
    match screenLineSku data p with
    | none => items
    | some it => items ++ [it]) []
  let items2 : List CartItem :=
    if state.installationType = some "professional" then
      match data.services.find? (fun v => jsIncludes v.title
          (if state.screens.any (fun s => decide (s.motor ≠ some "solar"))
           then "Wired" else "Solar")) with
      | some sv => items1 ++ [⟨sv.id, 1, none⟩]
      | none => items1
    else items1
  let items3 : List CartItem :=
    if state.installationType = some "diy" then
      match state.bracketId with
      | some b =>
        if b = 0 then items2
        else items2 ++ [⟨b, (state.screens.length : Int), none⟩]
      | none => items2
    else items2
  let items4 : List CartItem := state.addons.foldl (fun items p =>
    if p.2 > 0 then items ++ [⟨p.1, p.2, none⟩] else items) items3
  ⟨items4⟩

/-- `generateCartPayload` of `screenlux-engine.js`: identical structure,
but rules-based pricing, Strategy A resolution, and the drive test
`!s.solar` on the legacy boolean field. -/
def generateCartPayloadStepped (state : SessionState) (data : CatalogData) :
    CartPayload :=
  let items1 : List CartItem := (state.screens.enum).foldl (fun items p =>
    match screenLineStepped data p with
    | none => items
    | some it => items ++ [it]) []
  let items2 : List CartItem :=
    if state.installationType = some "professional" then
      match data.services.find? (fun v => jsIncludes v.title
          (if state.screens.any (fun s => !s.solar)
           then "Wired" else "Solar")) with
      | some sv => items1 ++ [⟨sv.id, 1, none⟩]
      | none => items1
    else items1
  let items3 : List CartItem :=
    if state.installationType = some "diy" then
      match state.bracketId with
      | some b =>
        if b = 0 then items2
        else items2 ++ [⟨b, (state.screens.length : Int), none⟩]
      | none => items2
    else items2
  let items4 : List CartItem := state.addons.foldl (fun items p =>
    if p.2 > 0 then items ++ [⟨p.1, p.2, none⟩] else items) items3
  ⟨items4⟩

/-- The screens segment of the final-revision payload: one item per
screen in session order, a screen whose resolution is `none` contributing
nothing. -/
def screensSegSku (state : SessionState) (data : CatalogData) :
    List CartItem :=
  (state.screens.enum).filterMap (screenLineSku data)

/-- The screens segment of the `screenlux-engine.js` payload. -/
def screensSegStepped (state : SessionState) (data : CatalogData) :
    List CartItem :=
  (state.screens.enum).filterMap (screenLineStepped data)

/-- The installation-service segment of the final-revision payload: one
quantity-1 item for the first keyword-matching service under professional
installation, else nothing. -/
def installSegSku (state : SessionState) (data : CatalogData) :
    List CartItem :=
  if state.installationType = some "professional" then
    match data.services.find? (fun v => jsIncludes v.title
        (if state.screens.any (fun s => decide (s.motor ≠ some "solar"))
         then "Wired" else "Solar")) with
    | some sv => [⟨sv.id, 1, none⟩]
    | none => []
  else []

/-- The installation-service segment of the `screenlux-engine.js`
payload (legacy `!s.solar` drive test). -/
def installSegStepped (state : SessionState) (data : CatalogData) :
    List CartItem :=
  if state.installationType = some "professional" then
    match data.services.find? (fun v => jsIncludes v.title
        (if state.screens.any (fun s => !s.solar)
         then "Wired" else "Solar")) with
    | some sv => [⟨sv.id, 1, none⟩]
    | none => []
  else []

/-- The bracket segment (identical in both revisions): under DIY with a
truthy bracket id, one item with quantity = number of screens. -/
def bracketSeg (state : SessionState) : List CartItem :=
  if state.installationType = some "diy" then
    match state.bracketId with
    | some b =>
      if b = 0 then []
      else [⟨b, (state.screens.length : Int), none⟩]
    | none => []
  else []

/-- The accessories segment (identical in both revisions): one item per
positive-quantity entry, in mapping iteration order. -/
def addonsSeg (state : SessionState) : List CartItem :=
  state.addons.filterMap (fun p =>
    if p.2 > 0 then some ⟨p.1, p.2, none⟩ else none)

/-- A `forEach`-style fold that pushes an optional item per element
equals the accumulator followed by the `filterMap`. -/
lemma foldl_skip_append {α : Type} (f : α → Option CartItem) :
    ∀ (l : List α) (acc : List CartItem),
      l.foldl (fun items a =>
        match f a with
        | none => items
        | some it => items ++ [it]) acc = acc ++ l.filterMap f := by
  intro l
  induction l with
  | nil => intro acc; simp
  | cons x xs ih =>
    intro acc
    simp only [List.foldl_cons, List.filterMap_cons]
    cases hfx : f x with
    | none => simp [ih]
    | some it => simp [ih]

/-- The addons fold that pushes positive-quantity items equals the
accumulator followed by the corresponding `filterMap`. -/
lemma foldl_addons_append :
    ∀ (l : List (Int × Int)) (acc : List CartItem),
      l.foldl (fun items p =>
        if p.2 > 0 then items ++ [⟨p.1, p.2, none⟩] else items) acc
      = acc ++ l.filterMap (fun p =>
          if p.2 > 0 then some ⟨p.1, p.2, none⟩ else none) := by
  intro l
  induction l with
  | nil => intro acc; simp
  | cons x xs ih =>
    intro acc
    simp only [List.foldl_cons, List.filterMap_cons]
    by_cases hx : x.2 > 0
    · simp [hx, ih]
    · simp [hx, ih]

/-- The installation step of the final-revision payload appends exactly
the installation segment. -/
lemma installStepSku_eq (state : SessionState) (data : CatalogData)
    (base : List CartItem) :
    (if state.installationType = some "professional" then
      match data.services.find? (fun v => jsIncludes v.title
          (if state.screens.any (fun s => decide (s.motor ≠ some "solar"))
           then "Wired" else "Solar")) with
      | some sv => base ++ [⟨sv.id, 1, none⟩]
      | none => base
    else base) = base ++ installSegSku state data := by
  simp only [installSegSku]
  split_ifs with h1 h2
  · cases List.find? (fun v => jsIncludes v.title "Wired") data.services <;> simp
  · cases List.find? (fun v => jsIncludes v.title "Solar") data.services <;> simp
  · simp

/-- The installation step of the `screenlux-engine.js` payload appends
exactly its installation segment. -/
lemma installStepStepped_eq (state : SessionState) (data : CatalogData)
    (base : List CartItem) :
    (if state.installationType = some "professional" then
      match data.services.find? (fun v => jsIncludes v.title
          (if state.screens.any (fun s => !s.solar)
           then "Wired" else "Solar")) with
      | some sv => base ++ [⟨sv.id, 1, none⟩]
      | none => base
    else base) = base ++ installSegStepped state data := by
  simp only [installSegStepped]
  split_ifs with h1 h2
  · cases List.find? (fun v => jsIncludes v.title "Wired") data.services <;> simp
  · cases List.find? (fun v => jsIncludes v.title "Solar") data.services <;> simp
  · simp

/-- The bracket step appends exactly the bracket segment. -/
lemma bracketStep_eq (state : SessionState) (base : List CartItem) :
    (if state.installationType = some "diy" then
      match state.bracketId with
      | some b =>
        if b = 0 then base
        else base ++ [⟨b, (state.screens.length : Int), none⟩]
      | none => base
    else base) = base ++ bracketSeg state := by
  simp only [bracketSeg]
  split_ifs
  · cases state.bracketId with
    | none => simp
    | some b => by_cases hb : b = 0 <;> simp [hb]
  · simp

/-- Decomposition of the final-revision payload into its four ordered
segments. -/
lemma payloadSku_decomp (state : SessionState) (data : CatalogData) :
    (generateCartPayloadSku state data).items
      = screensSegSku state data ++ installSegSku state data
        ++ bracketSeg state ++ addonsSeg state := by
  simp only [generateCartPayloadSku]
  rw [foldl_addons_append, bracketStep_eq, installStepSku_eq,
    foldl_skip_append]
  simp only [screensSegSku, addonsSeg, List.nil_append, List.append_assoc]

/-- Decomposition of the `screenlux-engine.js` payload into its four
ordered segments. -/
lemma payloadStepped_decomp (state : SessionState) (data : CatalogData) :
    (generateCartPayloadStepped state data).items
      = screensSegStepped state data ++ installSegStepped state data
        ++ bracketSeg state ++ addonsSeg state := by
  simp only [generateCartPayloadStepped]
  rw [foldl_addons_append, bracketStep_eq, installStepStepped_eq,
    foldl_skip_append]
  simp only [screensSegStepped, addonsSeg, List.nil_append, List.append_assoc]

/-- **C7.** In both engine revisions, the payload's `items` array is, in
order: one item per screen in session order (a screen whose variant
resolution returns `none` contributes no item while the others still
contribute theirs — see `screensSegSku`/`screensSegStepped`), then the
installation-service item if any, then the bracket item if any, then one
item per positive-quantity accessory entry in mapping iteration order. -/
theorem C7_payload_order (state : SessionState) (data : CatalogData) :
    (generateCartPayloadSku state data).items
      = screensSegSku state data ++ installSegSku state data
        ++ bracketSeg state ++ addonsSeg state
    ∧ (generateCartPayloadStepped state data).items
      = screensSegStepped state data ++ installSegStepped state data
        ++ bracketSeg state ++ addonsSeg state :=
  ⟨payloadSku_decomp state data, payloadStepped_decomp state data⟩

/-- **C8.** Under professional installation, the final-revision payload
carries, between the screens segment and the bracket/accessory segments,
exactly one quantity-1 item for the first service whose title contains
`"Solar"` when every screen has the solar drive selected — and `"Wired"`
otherwise — and no installation item when no service title matches. -/
theorem C8_installation_service (state : SessionState) (data : CatalogData)
    (h : state.installationType = some "professional") :
    ((∀ s ∈ state.screens, s.motor = some "solar") →
      (generateCartPayloadSku state data).items
        = screensSegSku state data
          ++ (match data.services.find? (fun v => jsIncludes v.title "Solar") with
              | some sv => [(⟨sv.id, 1, none⟩ : CartItem)]
              | none => [])
          ++ bracketSeg state ++ addonsSeg state)
    ∧ ((¬ ∀ s ∈ state.screens, s.motor = some "solar") →
      (generateCartPayloadSku state data).items
        = screensSegSku state data
          ++ (match data.services.find? (fun v => jsIncludes v.title "Wired") with
              | some sv => [(⟨sv.id, 1, none⟩ : CartItem)]
              | none => [])
          ++ bracketSeg state ++ addonsSeg state) := by
  constructor
  · intro hall
    have hany : (state.screens.any (fun s => decide (s.motor ≠ some "solar")))
        = false := by
      rw [List.any_eq_false]
      intro s hs
      simp [hall s hs]
    have hseg : installSegSku state data
        = (match data.services.find? (fun v => jsIncludes v.title "Solar") with
           | some sv => [(⟨sv.id, 1, none⟩ : CartItem)]
           | none => []) := by
      simp only [installSegSku, hany]
      rw [if_pos h, if_neg Bool.false_ne_true]
    rw [payloadSku_decomp, hseg]
  · intro hnall
    have hex : ∃ s ∈ state.screens, s.motor ≠ some "solar" := by
      push_neg at hnall
      exact hnall
    have hany : (state.screens.any (fun s => decide (s.motor ≠ some "solar")))
        = true := by
      rw [List.any_eq_true]
      obtain ⟨s, hs, hm⟩ := hex
      exact ⟨s, hs, by simp [hm]⟩
    have hseg : installSegSku state data
        = (match data.services.find? (fun v => jsIncludes v.title "Wired") with
           | some sv => [(⟨sv.id, 1, none⟩ : CartItem)]
           | none => []) := by
      simp only [installSegSku, hany]
      rw [if_pos h, if_pos trivial]
    rw [payloadSku_decomp, hseg]

/-- Witness for C8: one all-solar screen, professional installation, an
empty variant catalog (so the screens segment is empty) and a catalog
with a Wired and a Solar service — the payload is exactly the
quantity-1 Solar service item. -/
theorem C8_witness :
    (generateCartPayloadSku
        ⟨[⟨1000, 1000, none, none, none, none, some "solar", false⟩],
          some "professional", none, []⟩
        ⟨⟨none, none, none, none, none, none⟩, [], [], [], [], [], [],
          [⟨66, "Professional Wired Installation"⟩,
           ⟨77, "Professional Solar Installation"⟩]⟩).items
      = [⟨77, 1, none⟩] := by
  have h := (C8_installation_service
      ⟨[⟨1000, 1000, none, none, none, none, some "solar", false⟩],
        some "professional", none, []⟩
      ⟨⟨none, none, none, none, none, none⟩, [], [], [], [], [], [],
        [⟨66, "Professional Wired Installation"⟩,
         ⟨77, "Professional Solar Installation"⟩]⟩ rfl).1 (by decide)
  rw [h]
  rfl

/-- Strategy A resolution of the `0` sentinel cost: the target is the
catalog minimum 50000 (0 rounds up to 0, which clamps to 50000). -/
lemma matchVariantStepped_zero (l : List Variant) :
    matchVariantStepped 0 l = l.find? (fun v => v.price == (50000 : Int)) := by
  simp only [matchVariantStepped]
  norm_num

/-- Strategy B never returns `none` on a nonempty variant list. -/
lemma matchVariantSku_isSome (rawPrice : Int) (l : List Variant)
    (h : l ≠ []) : (matchVariantSku rawPrice l).isSome := by
  simp only [matchVariantSku]
  cases hf : l.find? (fun v => decide (skuVal v = some ((rawPrice : ℚ) / 100))) with
  | some m => simp
  | none =>
    cases hfl : l.filter (fun v => (skuVal v).isSome) with
    | nil =>
      cases l with
      | nil => exact absurd rfl h
      | cons a as => simp
    | cons x xs => simp

/-- **C10 (counterexample).** A session whose only screen has invalid
dimensions, against an empty screen-variant catalog: the final-revision
(Strategy B) payload emits no item at all for that screen, so "under
Strategy B an item for the invalid screen is always emitted" fails. -/
theorem C10_counterexample :
    (validateDimensions 0 0).valid = false
    ∧ (generateCartPayloadSku
        ⟨[⟨0, 0, none, none, none, none, none, false⟩], none, none, []⟩
        ⟨⟨none, none, none, none, none, none⟩, [], [], [], [], [], [], []⟩).items
      = [] :=
  ⟨by decide, rfl⟩

/-- **C10 (amended).** `generateCartPayload` never consults validity: a
screen with invalid dimensions prices to the sentinel `0`, which flows
into variant resolution like any cost.  Under Strategy A, when a variant
priced at the 50000 minimum is present, an item for the invalid screen is
emitted at that variant with its `'Calculated Price'` property equal to
`"€0.00"`; under Strategy B an item for the invalid screen is emitted
whenever the screen-variant catalog is nonempty (on an empty catalog the
screen is skipped). -/
theorem C10_invalid_screen_line (state : SessionState) (data : CatalogData)
    (i : Nat) (screen : Screen)
    (hmem : (i, screen) ∈ state.screens.enum)
    (hinv : (validateDimensions screen.width screen.height).valid = false) :
    calculateScreenPrice screen = 0
    ∧ (∀ rules, calculateScreenPriceRules screen rules = 0)
    ∧ ((∃ v ∈ data.screens, v.price = 50000) →
        ∃ v, matchVariantStepped 0 data.screens = some v
          ∧ v.price = 50000
          ∧ (⟨v.id, 1, some (screenProps data i screen 0)⟩ : CartItem)
              ∈ (generateCartPayloadStepped state data).items
          ∧ ("Calculated Price", some "€0.00") ∈ screenProps data i screen 0)
    ∧ (data.screens ≠ [] →
        ∃ v, matchVariantSku 0 data.screens = some v
          ∧ (⟨v.id, 1, some (screenProps data i screen 0)⟩ : CartItem)
              ∈ (generateCartPayloadSku state data).items) := by
  refine ⟨calculateScreenPrice_invalid screen hinv,
    fun rules => calculateScreenPriceRules_invalid screen rules hinv, ?_, ?_⟩
  · rintro ⟨v0, hv0mem, hv0price⟩
    have hsome : (data.screens.find? (fun v => v.price == (50000 : Int))).isSome :=
      List.find?_isSome.mpr ⟨v0, hv0mem, by simp [hv0price]⟩
    obtain ⟨v, hfv⟩ := Option.isSome_iff_exists.mp hsome
    have hmatch : matchVariantStepped 0 data.screens = some v := by
      rw [matchVariantStepped_zero]
      exact hfv
    have hvp : v.price = 50000 := by
      have := List.find?_some hfv
      simpa using this
    have hline : screenLineStepped data (i, screen)
        = some ⟨v.id, 1, some (screenProps data i screen 0)⟩ := by
      dsimp only [screenLineStepped]
      rw [calculateScreenPriceRules_invalid screen data.config hinv, hmatch]
    refine ⟨v, hmatch, hvp, ?_, ?_⟩
    · rw [payloadStepped_decomp]
      exact List.mem_append_left _ (List.mem_append_left _
        (List.mem_append_left _
          (List.mem_filterMap.mpr ⟨(i, screen), hmem, hline⟩)))
    · have he : euroFormat 0 = "€0.00" := by decide
      have hm : ("Calculated Price", some (euroFormat 0))
          ∈ screenProps data i screen 0 := by
        simp [screenProps]
      rw [← he]
      exact hm
  · intro hne
    obtain ⟨v, hfv⟩ :=
      Option.isSome_iff_exists.mp (matchVariantSku_isSome 0 data.screens hne)
    have hline : screenLineSku data (i, screen)
        = some ⟨v.id, 1, some (screenProps data i screen 0)⟩ := by
      dsimp only [screenLineSku]
      rw [calculateScreenPrice_invalid screen hinv, hfv]
    refine ⟨v, hfv, ?_⟩
    rw [payloadSku_decomp]
    exact List.mem_append_left _ (List.mem_append_left _
      (List.mem_append_left _
        (List.mem_filterMap.mpr ⟨(i, screen), hmem, hline⟩)))

/-- Witness for C10: the 0×0 screen is invalid, prices to 0, and against
the one-variant catalog `[{id 11, price 50000, sku "500,00"}]` both
strategies resolve the sentinel to a variant. -/
theorem C10_witness :
    calculateScreenPrice ⟨0, 0, none, none, none, none, none, false⟩ = 0
    ∧ (∃ v, matchVariantStepped 0 [(⟨11, 50000, some "500,00"⟩ : Variant)]
        = some v ∧ v.price = 50000)
    ∧ (∃ v, matchVariantSku 0 [(⟨11, 50000, some "500,00"⟩ : Variant)]
        = some v) := by
  have h := C10_invalid_screen_line
    ⟨[⟨0, 0, none, none, none, none, none, false⟩], none, none, []⟩
    ⟨⟨none, none, none, none, none, none⟩,
      [⟨11, 50000, some "500,00"⟩], [], [], [], [], [], []⟩
    0 ⟨0, 0, none, none, none, none, none, false⟩ (by decide) (by decide)
  refine ⟨h.1, ?_, ?_⟩
  · obtain ⟨v, hm, hp, -, -⟩ :=
      h.2.2.1 ⟨⟨11, 50000, some "500,00"⟩, by decide, by decide⟩
    exact ⟨v, hm, hp⟩
  · obtain ⟨v, hm, -⟩ := h.2.2.2 (by decide)
    exact ⟨v, hm⟩

end Screenlux
